import Mathlib

/-!
Verification of the incremental swap-move evaluator in `src/op.rs`.

Modelling conventions for the shallow embedding:
* Machine integers (`usize`, `u64`, `u16`, `isize`, `i64`) are `Nat`/`Int`;
  wherever the source can wrap (the explicit `wrapping_sub`/`wrapping_add`
  on `u16` occupancies, the `u64` `-=`/`+=` on frequency sums, and the
  `as isize`/`as usize`/`as i64`/`as u64` reinterpreting casts) the wrap
  is written out with an explicit `% 2^w`.
* `f64` values are idealised as exact rationals `ℚ`; the library function
  `f64::exp` and the external scoring routine are abstract fields of the
  read-only context, as the spec declares them external collaborators.
* Arrays indexed by item index, code, role or key become total functions
  out of `Nat`; the caller-validates-indices contract of the spec makes
  out-of-range accesses a non-issue.
* The key list of an item, stored in Rust as `([u8; MAX_PARTS], u8)`
  (fixed buffer plus length), is modelled as the `List Nat` of its used
  prefix.
* The thread RNG is a stream of rational draws plus a position; `gen()`
  reads the draw at the current position and advances it.
-/

namespace Op

/-- Two to the sixty-four, the modulus of `u64`/`usize` arithmetic. -/
def M64 : Nat := 18446744073709551616

/-- Two to the sixty-three, the boundary between the nonnegative and
negative halves of `i64`/`isize`. -/
def M63 : Nat := 9223372036854775808

/-- Wrapping decrement of a `u16` occupancy counter
(`old_count.wrapping_sub(1)` in the source). -/
def u16wsub1 (n : Nat) : Nat := (n + 65535) % 65536

/-- Wrapping increment of a `u16` occupancy counter
(`new_count.wrapping_add(1)` in the source). -/
def u16wadd1 (n : Nat) : Nat := (n + 1) % 65536

/-- `u64` subtraction `a - b`, wrapping modulo `2^64` as Rust release-mode
`-=` does. -/
def u64sub (a b : Nat) : Nat := (a + (M64 - b % M64)) % M64

/-- `u64` addition `a + b`, wrapping modulo `2^64`. -/
def u64add (a b : Nat) : Nat := (a + b) % M64

/-- Reinterpretation `as i64` (also `as isize`) of an unsigned 64-bit
value held as a `Nat`. -/
def toI64 (n : Nat) : Int :=
  if n % M64 < M63 then ((n % M64 : Nat) : Int) else ((n % M64 : Nat) : Int) - (M64 : Int)

/-- Reinterpretation `as u64` (also `as usize`) of a signed 64-bit value
held as an `Int`. -/
def toU64 (i : Int) : Nat := (i % (M64 : Int)).toNat

/-- Read-only Problem Context: role permissions, role→affected-items
index, per-item frequencies, the two pure derivation functions, and the
two external routines.

The fields `score` (applied to the four scalar aggregates and the
per-key usage vector) and `fexp` (the `f64::exp` of the standard
library) are Modelled from the spec: the scoring routine `get_score`
and the exponential are external collaborators, absent from `src/`, and
the spec (§4.5, §6) describes the score as a pure function of the
global aggregates. -/
structure OptContext where
  n_items : Nat
  n_codes : Nat
  n_keys : Nat
  dynamic_groups : Nat → Nat → Bool
  group_to_char_indices : Nat → List Nat
  frequency : Nat → Nat
  calc_code_and_keys : Nat → (Nat → Nat) → Nat × List Nat
  calc_key_avg_equiv_inline : List Nat → ℚ
  score : Nat → Nat → ℚ → ℚ → (Nat → ℚ) → ℚ
  fexp : ℚ → ℚ

/-- Optimizer State: per-item caches, per-code buckets, and the global
aggregates, exactly the mutable fields of the Rust struct that
`try_swap_optimized` touches. -/
structure OptState where
  current_codes : Nat → Nat
  current_keys : Nat → List Nat
  current_equiv_contrib : Nat → ℚ
  current_equiv_sq_contrib : Nat → ℚ
  buckets : Nat → Nat
  bucket_freqs : Nat → Nat
  total_collisions : Nat
  collision_frequency : Nat
  total_equiv_weighted : ℚ
  total_equiv_sq_weighted : ℚ
  key_weighted_usage : Nat → ℚ

/-- Modelled from the spec: `get_score` is the external objective
(§4.5), a pure function of the four scalar aggregates and the per-key
usage vector. -/
def get_score (ctx : OptContext) (st : OptState) : ℚ :=
  ctx.score st.total_collisions st.collision_frequency
    st.total_equiv_weighted st.total_equiv_sq_weighted st.key_weighted_usage

/-- Embedding of `update_buckets_for_char` (src/op.rs:188-218): moves one
item of frequency `freq` from bucket `old_code` to bucket `new_code`,
mutating occupancies and frequency sums, and returns the signed
`(collision_delta, freq_delta)` pair (`isize`, `i64` in the source). -/
def update_buckets_for_char (st : OptState) (old_code new_code freq : Nat) :
    OptState × Int × Int :=
  let old_count := st.buckets old_code
  let collision_delta : Int := if old_count > 1 then -1 else 0
  let freq_delta : Int :=
    if old_count > 1 then
      (if old_count = 2 then
        -(toI64 freq) - toI64 (u64sub (st.bucket_freqs old_code) freq)
      else
        -(toI64 freq))
    else 0
  let st1 : OptState := { st with
    buckets := Function.update st.buckets old_code (u16wsub1 old_count),
    bucket_freqs :=
      Function.update st.bucket_freqs old_code (u64sub (st.bucket_freqs old_code) freq) }
  let new_count := st1.buckets new_code
  let collision_delta :=
    if new_count ≥ 1 then collision_delta + 1 else collision_delta
  let freq_delta :=
    if new_count ≥ 1 then
      (if new_count = 1 then
        freq_delta + toI64 freq + toI64 (st1.bucket_freqs new_code)
      else
        freq_delta + toI64 freq)
    else freq_delta
  let st2 : OptState := { st1 with
    buckets := Function.update st1.buckets new_code (u16wadd1 new_count),
    bucket_freqs :=
      Function.update st1.bucket_freqs new_code (u64add (st1.bucket_freqs new_code) freq) }
  (st2, collision_delta, freq_delta)

/-- Local accumulators of `update_swap_diff_fast` (src/op.rs:124-128). -/
structure DiffLocals where
  local_collisions : Nat
  local_collision_freq : Nat
  local_equiv_weighted : ℚ
  local_equiv_sq_weighted : ℚ
  local_key_usage : Nat → ℚ

/-- Initial local accumulators, copied from the global aggregates. -/
def initLocals (st : OptState) : DiffLocals :=
  ⟨st.total_collisions, st.collision_frequency, st.total_equiv_weighted,
   st.total_equiv_sq_weighted, st.key_weighted_usage⟩

/-- The per-key usage loop that subtracts `freq_f` at every key of the
old key list (src/op.rs:166-169). -/
def subUsage (freq_f : ℚ) (u : Nat → ℚ) (keys : List Nat) : Nat → ℚ :=
  keys.foldl (fun u k => Function.update u k (u k - freq_f)) u

/-- The per-key usage loop that adds `freq_f` at every key of the new
key list (src/op.rs:170-173). -/
def addUsage (freq_f : ℚ) (u : Nat → ℚ) (keys : List Nat) : Nat → ℚ :=
  keys.foldl (fun u k => Function.update u k (u k + freq_f)) u

/-- One iteration of the loop body of `update_swap_diff_fast`
(src/op.rs:130-178) for the affected item `char_idx`. -/
def diffStep (ctx : OptContext) (assignment : Nat → Nat)
    (acc : OptState × DiffLocals) (char_idx : Nat) : OptState × DiffLocals :=
  let st := acc.1
  let l := acc.2
  let old_code := st.current_codes char_idx
  let old_keys := st.current_keys char_idx
  let cc := ctx.calc_code_and_keys char_idx assignment
  let new_code := cc.1
  let new_keys := cc.2
  if old_code = new_code then acc
  else
    let freq := ctx.frequency char_idx
    let freq_f : ℚ := (freq : ℚ)
    let ub := update_buckets_for_char st old_code new_code freq
    let st1 := ub.1
    let local_collisions := toU64 (toI64 l.local_collisions + ub.2.1)
    let local_collision_freq := toU64 (toI64 l.local_collision_freq + ub.2.2)
    let old_contrib := st1.current_equiv_contrib char_idx
    let old_sq_contrib := st1.current_equiv_sq_contrib char_idx
    let new_key_avg_equiv := ctx.calc_key_avg_equiv_inline new_keys
    let new_contrib := new_key_avg_equiv * freq_f
    let new_sq_contrib := new_key_avg_equiv * new_key_avg_equiv * freq_f
    let local_equiv_weighted := l.local_equiv_weighted + (new_contrib - old_contrib)
    let local_equiv_sq_weighted := l.local_equiv_sq_weighted + (new_sq_contrib - old_sq_contrib)
    let st2 : OptState := { st1 with
      current_equiv_contrib := Function.update st1.current_equiv_contrib char_idx new_contrib,
      current_equiv_sq_contrib :=
        Function.update st1.current_equiv_sq_contrib char_idx new_sq_contrib }
    let usage1 := subUsage freq_f l.local_key_usage old_keys
    let usage2 := addUsage freq_f usage1 new_keys
    let st3 : OptState := { st2 with
      current_codes := Function.update st2.current_codes char_idx new_code,
      current_keys := Function.update st2.current_keys char_idx new_keys }
    (st3, ⟨local_collisions, local_collision_freq, local_equiv_weighted,
           local_equiv_sq_weighted, usage2⟩)

/-- The batched commit at the end of `update_swap_diff_fast`
(src/op.rs:180-185): the local accumulators are written back into the
global aggregates in one step. -/
def writeback (st : OptState) (l : DiffLocals) : OptState :=
  { st with
    total_collisions := l.local_collisions,
    collision_frequency := l.local_collision_freq,
    total_equiv_weighted := l.local_equiv_weighted,
    total_equiv_sq_weighted := l.local_equiv_sq_weighted,
    key_weighted_usage := l.local_key_usage }

/-- Embedding of `update_swap_diff_fast` (src/op.rs:121-186): folds the
loop body over the affected items, then commits the local accumulators. -/
def update_swap_diff_fast (ctx : OptContext) (st : OptState)
    (assignment : Nat → Nat) (affected_chars : List Nat) : OptState :=
  let fin := affected_chars.foldl (diffStep ctx assignment) (st, initLocals st)
  writeback fin.1 fin.2

/-- Embedding of the `SwapSnapshot` struct (src/op.rs:220-233); the
association lists mirror the pushed `(index, value)` pairs. -/
structure SwapSnapshot where
  codes : List (Nat × Nat)
  keys : List (Nat × List Nat)
  equiv_contribs : List (Nat × ℚ)
  equiv_sq_contribs : List (Nat × ℚ)
  buckets : List (Nat × Nat)
  bucket_freqs : List (Nat × Nat)
  collision_count : Nat
  collision_frequency : Nat
  total_equiv_weighted : ℚ
  total_equiv_sq_weighted : ℚ
  key_weighted_usage : Nat → ℚ

/-- Embedding of `create_swap_snapshot` (src/op.rs:57-87): records, for
each affected item, its cached code, key list and equivalence
contributions, and the occupancy and frequency sum of the bucket its
current code owns; plus the four scalar aggregates and a full copy of
the per-key usage vector. -/
def create_swap_snapshot (st : OptState) (affected_chars : List Nat) : SwapSnapshot :=
  { codes := affected_chars.map (fun i => (i, st.current_codes i)),
    keys := affected_chars.map (fun i => (i, st.current_keys i)),
    equiv_contribs := affected_chars.map (fun i => (i, st.current_equiv_contrib i)),
    equiv_sq_contribs := affected_chars.map (fun i => (i, st.current_equiv_sq_contrib i)),
    buckets := affected_chars.map (fun i =>
      (st.current_codes i, st.buckets (st.current_codes i))),
    bucket_freqs := affected_chars.map (fun i =>
      (st.current_codes i, st.bucket_freqs (st.current_codes i))),
    collision_count := st.total_collisions,
    collision_frequency := st.collision_frequency,
    total_equiv_weighted := st.total_equiv_weighted,
    total_equiv_sq_weighted := st.total_equiv_sq_weighted,
    key_weighted_usage := st.key_weighted_usage }

/-- Sequential write-back of recorded `(index, value)` pairs; later
entries win, as in the source's restore loops. -/
def writeEntries {α : Type} (f : Nat → α) (entries : List (Nat × α)) : Nat → α :=
  entries.foldl (fun f e => Function.update f e.1 e.2) f

/-- Embedding of `restore_swap_snapshot` (src/op.rs:89-119): overwrites
the four scalars and the usage vector wholesale and writes every
recorded item/bucket entry back in order. -/
def restore_swap_snapshot (st : OptState) (snap : SwapSnapshot) : OptState :=
  { st with
    total_collisions := snap.collision_count,
    collision_frequency := snap.collision_frequency,
    total_equiv_weighted := snap.total_equiv_weighted,
    total_equiv_sq_weighted := snap.total_equiv_sq_weighted,
    key_weighted_usage := snap.key_weighted_usage,
    current_codes := writeEntries st.current_codes snap.codes,
    current_keys := writeEntries st.current_keys snap.keys,
    current_equiv_contrib := writeEntries st.current_equiv_contrib snap.equiv_contribs,
    current_equiv_sq_contrib := writeEntries st.current_equiv_sq_contrib snap.equiv_sq_contribs,
    buckets := writeEntries st.buckets snap.buckets,
    bucket_freqs := writeEntries st.bucket_freqs snap.bucket_freqs }

/-- The caller-supplied uniform source: a stream of draws and the
position of the next one. `rng.gen::<f64>()` reads `draws pos` and
advances `pos`. -/
structure Rng where
  draws : Nat → ℚ
  pos : Nat

/-- Result of one `try_swap_optimized` call: the returned boolean plus
the (possibly mutated) state, assignment and RNG. -/
structure SwapResult where
  accepted : Bool
  state : OptState
  assignment : Nat → Nat
  rng : Rng

/-- The fast-rejection test of `try_swap_optimized` (src/op.rs:14-18):
equal current keys, or either role not permitted to hold the other's
current key. -/
def fastRejected (ctx : OptContext) (assignment : Nat → Nat) (r1 r2 : Nat) : Bool :=
  assignment r1 == assignment r2 ||
  !(ctx.dynamic_groups r1 (assignment r2)) ||
  !(ctx.dynamic_groups r2 (assignment r1))

/-- The deduplicated union of the two roles' affected items
(src/op.rs:28-34): all of role 1's list, then those of role 2's not
already present. -/
def affectedUnion (ctx : OptContext) (r1 r2 : Nat) : List Nat :=
  let affected1 := ctx.group_to_char_indices r1
  let affected2 := ctx.group_to_char_indices r2
  affected1 ++ affected2.filter (fun c => !(affected1.contains c))

/-- The two assignment writes `assignment[r1] = k2; assignment[r2] = k1`
(src/op.rs:39-40). -/
def swappedAssignment (assignment : Nat → Nat) (r1 r2 : Nat) : Nat → Nat :=
  Function.update (Function.update assignment r1 (assignment r2)) r2 (assignment r1)

/-- The score delta a non-fast-rejected call computes: new score after
the diff pass over the swapped assignment, minus the old score. -/
def swap_delta (ctx : OptContext) (st : OptState) (assignment : Nat → Nat)
    (r1 r2 : Nat) : ℚ :=
  get_score ctx
      (update_swap_diff_fast ctx st (swappedAssignment assignment r1 r2)
        (affectedUnion ctx r1 r2))
    - get_score ctx st

/-- Embedding of `try_swap_optimized` (src/op.rs:1-55). The nested `if`
mirrors the short-circuit of `delta <= 0.0 || rng.gen::<f64>() < ...`:
the RNG is only sampled when `delta > 0`. -/
def try_swap_optimized (ctx : OptContext) (st : OptState) (assignment : Nat → Nat)
    (r1 r2 : Nat) (temp : ℚ) (rng : Rng) : SwapResult :=
  let k1 := assignment r1
  let k2 := assignment r2
  if fastRejected ctx assignment r1 r2 then
    ⟨false, st, assignment, rng⟩
  else
    let old_score := get_score ctx st
    let affected_chars := affectedUnion ctx r1 r2
    let snapshot := create_swap_snapshot st affected_chars
    let assignment1 := swappedAssignment assignment r1 r2
    let st1 := update_swap_diff_fast ctx st assignment1 affected_chars
    let new_score := get_score ctx st1
    let delta := new_score - old_score
    if delta ≤ 0 then ⟨true, st1, assignment1, rng⟩
    else
      let u := rng.draws rng.pos
      let rng1 : Rng := ⟨rng.draws, rng.pos + 1⟩
      if u < ctx.fexp (-delta / temp) then ⟨true, st1, assignment1, rng1⟩
      else
        let assignment2 := Function.update (Function.update assignment1 r1 k1) r2 k2
        ⟨false, restore_swap_snapshot st1 snapshot, assignment2, rng1⟩

/-!
From-scratch recomputation of the aggregates, and the data-model
invariants of spec §3, stated over the caches held in the state.
-/

/-- Number of items (below `n`) whose current code is `code`. -/
def occupancy (n : Nat) (codes : Nat → Nat) (code : Nat) : Nat :=
  ((Finset.range n).filter (fun i => codes i = code)).card

/-- Sum of the frequencies of the items whose current code is `code`. -/
def bucketFreqSum (n : Nat) (codes : Nat → Nat) (freq : Nat → Nat) (code : Nat) : Nat :=
  ∑ i in (Finset.range n).filter (fun i => codes i = code), freq i

/-- The quantity `update_buckets_for_char` actually maintains as the
collision count: the total number of excess items, i.e. the sum over
buckets of `occupancy - 1`, each empty bucket contributing zero. -/
def excessCollisions (n n_codes : Nat) (codes : Nat → Nat) : Nat :=
  ∑ code in Finset.range n_codes, (occupancy n codes code - 1)

/-- Collision frequency recomputed from scratch, grouped per bucket:
the frequency sums of all buckets with occupancy above one. -/
def collisionFreqTotal (n n_codes : Nat) (codes : Nat → Nat) (freq : Nat → Nat) : Nat :=
  ∑ code in Finset.range n_codes,
    (if 1 < occupancy n codes code then bucketFreqSum n codes freq code else 0)

/-- Collision frequency recomputed from scratch, item by item as the
spec words it: the sum of the frequencies of all items that belong to a
bucket with occupancy above one. -/
def collisionFreqItems (n : Nat) (codes : Nat → Nat) (freq : Nat → Nat) : Nat :=
  ∑ i in Finset.range n, (if 1 < occupancy n codes (codes i) then freq i else 0)

/-- Per-key weighted usage recomputed from scratch: over all items,
each occurrence of key `k` in the item's key list contributes the
item's frequency. -/
def keyUsageTotal (n : Nat) (keysOf : Nat → List Nat) (freq : Nat → Nat) (k : Nat) : ℚ :=
  ∑ i in Finset.range n, ((keysOf i).count k : ℚ) * ((freq i : Nat) : ℚ)

/-- The collision count as the spec's invariant 2 words it: the number
of buckets with occupancy above one. -/
def claimedCollisions (n n_codes : Nat) (codes : Nat → Nat) : Nat :=
  ((Finset.range n_codes).filter (fun code => 1 < occupancy n codes code)).card

/-- All cached codes lie below the bucket-array length. -/
@[reducible] def CodesWF (ctx : OptContext) (st : OptState) : Prop :=
  ∀ i < ctx.n_items, st.current_codes i < ctx.n_codes

/-- All cached key indices lie below the usage-table length. -/
@[reducible] def KeysWF (ctx : OptContext) (st : OptState) : Prop :=
  ∀ i < ctx.n_items, ∀ k ∈ st.current_keys i, k < ctx.n_keys

/-- Invariant 1 of spec §3: every bucket's occupancy and frequency sum
agree with a from-scratch recount over the cached codes. -/
@[reducible] def BucketInv (ctx : OptContext) (st : OptState) : Prop :=
  (∀ code < ctx.n_codes, st.buckets code = occupancy ctx.n_items st.current_codes code) ∧
  (∀ code < ctx.n_codes,
    st.bucket_freqs code = bucketFreqSum ctx.n_items st.current_codes ctx.frequency code)

/-- The aggregate invariants the code maintains: collision count as
excess items, collision frequency and per-key usage from scratch. -/
@[reducible] def AggInv (ctx : OptContext) (st : OptState) : Prop :=
  st.total_collisions = excessCollisions ctx.n_items ctx.n_codes st.current_codes ∧
  st.collision_frequency =
    collisionFreqTotal ctx.n_items ctx.n_codes st.current_codes ctx.frequency ∧
  ∀ k < ctx.n_keys,
    st.key_weighted_usage k = keyUsageTotal ctx.n_items st.current_keys ctx.frequency k

/-- The full (code-accurate) Optimizer State invariant. -/
@[reducible] def StateInv (ctx : OptContext) (st : OptState) : Prop :=
  CodesWF ctx st ∧ KeysWF ctx st ∧ BucketInv ctx st ∧ AggInv ctx st

/-- Total frequency mass of the problem. -/
def totalFreq (ctx : OptContext) : Nat :=
  ∑ i in Finset.range ctx.n_items, ctx.frequency i

/-- Size bounds making the machine arithmetic exact: occupancies fit a
`u16` and every frequency sum fits the nonnegative half of an `i64`. -/
@[reducible] def SizeWF (ctx : OptContext) : Prop :=
  ctx.n_items < 65536 ∧ totalFreq ctx < M63

/-- The derivation function stays within the code and key bounds under
the given assignment. -/
@[reducible] def CalcWF (ctx : OptContext) (assignment : Nat → Nat) : Prop :=
  ∀ i < ctx.n_items,
    (ctx.calc_code_and_keys i assignment).1 < ctx.n_codes ∧
    ∀ k ∈ (ctx.calc_code_and_keys i assignment).2, k < ctx.n_keys

/-- The data-model invariants exactly as spec §3 words them (used to
test the spec's own characterisation): invariant 2 counts buckets with
occupancy above one, invariant 3 sums colliding items' frequencies,
invariant 4 ties the equivalence sums to the cached contributions. -/
@[reducible] def ClaimedStateInv (ctx : OptContext) (st : OptState) : Prop :=
  CodesWF ctx st ∧ KeysWF ctx st ∧ BucketInv ctx st ∧
  st.total_collisions = claimedCollisions ctx.n_items ctx.n_codes st.current_codes ∧
  st.collision_frequency = collisionFreqItems ctx.n_items st.current_codes ctx.frequency ∧
  st.total_equiv_weighted = ∑ i in Finset.range ctx.n_items, st.current_equiv_contrib i ∧
  st.total_equiv_sq_weighted = ∑ i in Finset.range ctx.n_items, st.current_equiv_sq_contrib i ∧
  ∀ k < ctx.n_keys,
    st.key_weighted_usage k = keyUsageTotal ctx.n_items st.current_keys ctx.frequency k

/-- Modelled from the spec (§4.3): the naive variant of the diff
updater that writes every aggregate straight back into Optimizer State
after each item, instead of batching local accumulators. Used to state
the refinement-equivalence of the batched commit. -/
def naiveStep (ctx : OptContext) (assignment : Nat → Nat)
    (st : OptState) (char_idx : Nat) : OptState :=
  let old_code := st.current_codes char_idx
  let old_keys := st.current_keys char_idx
  let cc := ctx.calc_code_and_keys char_idx assignment
  let new_code := cc.1
  let new_keys := cc.2
  if old_code = new_code then st
  else
    let freq := ctx.frequency char_idx
    let freq_f : ℚ := (freq : ℚ)
    let ub := update_buckets_for_char st old_code new_code freq
    let st1 := ub.1
    let tc := toU64 (toI64 st1.total_collisions + ub.2.1)
    let cf := toU64 (toI64 st1.collision_frequency + ub.2.2)
    let old_contrib := st1.current_equiv_contrib char_idx
    let old_sq_contrib := st1.current_equiv_sq_contrib char_idx
    let new_key_avg_equiv := ctx.calc_key_avg_equiv_inline new_keys
    let new_contrib := new_key_avg_equiv * freq_f
    let new_sq_contrib := new_key_avg_equiv * new_key_avg_equiv * freq_f
    let usage1 := subUsage freq_f st1.key_weighted_usage old_keys
    let usage2 := addUsage freq_f usage1 new_keys
    { st1 with
      total_collisions := tc,
      collision_frequency := cf,
      total_equiv_weighted := st1.total_equiv_weighted + (new_contrib - old_contrib),
      total_equiv_sq_weighted := st1.total_equiv_sq_weighted + (new_sq_contrib - old_sq_contrib),
      current_equiv_contrib := Function.update st1.current_equiv_contrib char_idx new_contrib,
      current_equiv_sq_contrib :=
        Function.update st1.current_equiv_sq_contrib char_idx new_sq_contrib,
      key_weighted_usage := usage2,
      current_codes := Function.update st1.current_codes char_idx new_code,
      current_keys := Function.update st1.current_keys char_idx new_keys }

/-- Modelled from the spec (§4.3): naive diff updater, applying
`naiveStep` item by item with direct global updates. -/
def update_swap_diff_naive (ctx : OptContext) (st : OptState)
    (assignment : Nat → Nat) (affected_chars : List Nat) : OptState :=
  affected_chars.foldl (naiveStep ctx assignment) st

/-- The Bucket Delta Engine's output as spec §4.4 words it, as a pure
function of the two buckets' prior occupancies and frequency sums and
the moving item's frequency. -/
def bucketDeltaSpec (occ_old fs_old occ_new fs_new freq : Nat) : Int × Int :=
  let leave : Int × Int :=
    if 1 < occ_old then
      (-1, if occ_old = 2 then -(freq : Int) - ((fs_old - freq : Nat) : Int) else -(freq : Int))
    else (0, 0)
  let enter : Int × Int :=
    if 1 ≤ occ_new then
      (1, if occ_new = 1 then (freq : Int) + (fs_new : Int) else (freq : Int))
    else (0, 0)
  (leave.1 + enter.1, leave.2 + enter.2)

/-!
Concrete instances used by counterexamples and witnesses.
-/

/-- A one-item context: item 0's code is role 0's key, every key is
permitted everywhere, and the external score is the equivalence sum. -/
def wCtx : OptContext :=
  { n_items := 1, n_codes := 2, n_keys := 2,
    dynamic_groups := fun _ _ => true,
    group_to_char_indices := fun r => if r = 0 then [0] else [],
    frequency := fun _ => 1,
    calc_code_and_keys := fun i asg => if i = 0 then (asg 0, [asg 0]) else (0, [0]),
    calc_key_avg_equiv_inline := fun keys => (keys.sum : ℚ),
    score := fun _ _ e _ _ => e,
    fexp := fun _ => 0 }

/-- Variant of `wCtx` whose derivation keeps the code but changes the
key list. -/
def wCtxKeys : OptContext :=
  { wCtx with calc_code_and_keys := fun _ _ => (0, [1]) }

/-- Initial state matching `wCtx`: item 0 sits alone in bucket 0. -/
def wSt : OptState :=
  { current_codes := fun _ => 0,
    current_keys := fun i => if i = 0 then [0] else [],
    current_equiv_contrib := fun _ => 0,
    current_equiv_sq_contrib := fun _ => 0,
    buckets := fun c => if c = 0 then 1 else 0,
    bucket_freqs := fun c => if c = 0 then 1 else 0,
    total_collisions := 0,
    collision_frequency := 0,
    total_equiv_weighted := 0,
    total_equiv_sq_weighted := 0,
    key_weighted_usage := fun k => if k = 0 then 1 else 0 }

/-- Assignment giving role 0 key 0 and every other role key 1. -/
def wAsg : Nat → Nat := fun r => if r = 0 then 0 else 1

/-- Assignment giving every role key 0. -/
def wAsgEq : Nat → Nat := fun _ => 0

/-- A random source that always draws 0 and starts at position 0. -/
def wRng : Rng := ⟨fun _ => 0, 0⟩

/-- Three-item context for the collision-count test: item 0's code is
role 0's key, items 1 and 2 are pinned to code 0, and the score is the
collision count. -/
def cCtx : OptContext :=
  { n_items := 3, n_codes := 2, n_keys := 2,
    dynamic_groups := fun _ _ => true,
    group_to_char_indices := fun r => if r = 0 then [0] else [],
    frequency := fun _ => 1,
    calc_code_and_keys := fun i asg => if i = 0 then (asg 0, [asg 0]) else (0, [0]),
    calc_key_avg_equiv_inline := fun _ => 0,
    score := fun c _ _ _ _ => (c : ℚ),
    fexp := fun _ => 0 }

/-- State with all three items of `cCtx` sharing bucket 0, aggregates
set as the spec's invariants 2 and 3 word them (`total_collisions`
counts buckets with occupancy above one). -/
def cSt : OptState :=
  { current_codes := fun _ => 0,
    current_keys := fun _ => [0],
    current_equiv_contrib := fun _ => 0,
    current_equiv_sq_contrib := fun _ => 0,
    buckets := fun c => if c = 0 then 3 else 0,
    bucket_freqs := fun c => if c = 0 then 3 else 0,
    total_collisions := 1,
    collision_frequency := 3,
    total_equiv_weighted := 0,
    total_equiv_sq_weighted := 0,
    key_weighted_usage := fun k => if k = 0 then 3 else 0 }

/-- State identical to `cSt` except that `total_collisions` holds the
excess-item count the code actually maintains (two excess items in
bucket 0). -/
def cStExcess : OptState :=
  { cSt with total_collisions := 2 }

/-- Mid-loop invariant of the diff updater: the per-item caches and
buckets of the threaded state are consistent, and the local
accumulators carry the from-scratch values of the three aggregates the
loop maintains. -/
@[reducible] def InvMid (ctx : OptContext) (p : OptState × DiffLocals) : Prop :=
  CodesWF ctx p.1 ∧ KeysWF ctx p.1 ∧ BucketInv ctx p.1 ∧
  p.2.local_collisions = excessCollisions ctx.n_items ctx.n_codes p.1.current_codes ∧
  p.2.local_collision_freq =
    collisionFreqTotal ctx.n_items ctx.n_codes p.1.current_codes ctx.frequency ∧
  ∀ k < ctx.n_keys,
    p.2.local_key_usage k = keyUsageTotal ctx.n_items p.1.current_keys ctx.frequency k

/-!
Exactness lemmas for the wrapped machine arithmetic.
-/

theorem toI64_of_lt {n : Nat} (h : n < M63) : toI64 n = (n : Int) := by
  have hlt : n < M64 := lt_trans h (by decide)
  simp [toI64, Nat.mod_eq_of_lt hlt, h]

theorem toU64_of_eq {i : Int} {n : Nat} (h : i = (n : Int)) (hn : n < M64) : toU64 i = n := by
  subst h
  unfold toU64
  rw [Int.emod_eq_of_lt (by positivity) (by exact_mod_cast hn)]
  exact Int.toNat_natCast n

theorem u16wsub1_of {b : Nat} (h1 : 1 ≤ b) (h2 : b < 65536) : u16wsub1 b = b - 1 := by
  unfold u16wsub1
  omega

theorem u16wadd1_of {b : Nat} (h : b + 1 < 65536) : u16wadd1 b = b + 1 := by
  unfold u16wadd1
  omega

theorem u64sub_of {a b : Nat} (h1 : b ≤ a) (h2 : a < M64) : u64sub a b = a - b := by
  unfold u64sub
  have hb : b % M64 = b := Nat.mod_eq_of_lt (lt_of_le_of_lt h1 h2)
  rw [hb]
  have : a + (M64 - b) = M64 + (a - b) := by omega
  rw [this, Nat.add_mod_left]
  exact Nat.mod_eq_of_lt (by omega)

theorem u64add_of {a b : Nat} (h : a + b < M64) : u64add a b = a + b := by
  unfold u64add
  exact Nat.mod_eq_of_lt h

/-!
Occupancy and frequency-sum facts used against the bucket invariant.
-/

theorem occupancy_pos {n : Nat} {codes : Nat → Nat} {j code : Nat}
    (hj : j < n) (hc : codes j = code) : 1 ≤ occupancy n codes code := by
  unfold occupancy
  rw [Nat.succ_le, Finset.card_pos]
  exact ⟨j, Finset.mem_filter.mpr ⟨Finset.mem_range.mpr hj, hc⟩⟩

theorem occupancy_le {n : Nat} {codes : Nat → Nat} {code : Nat} :
    occupancy n codes code ≤ n := by
  unfold occupancy
  calc ((Finset.range n).filter (fun i => codes i = code)).card
      ≤ (Finset.range n).card := Finset.card_filter_le _ _
    _ = n := Finset.card_range n

theorem bucketFreqSum_ge {n : Nat} {codes : Nat → Nat} {freq : Nat → Nat} {j code : Nat}
    (hj : j < n) (hc : codes j = code) :
    freq j ≤ bucketFreqSum n codes freq code := by
  unfold bucketFreqSum
  exact Finset.single_le_sum (fun i _ => Nat.zero_le (freq i))
    (Finset.mem_filter.mpr ⟨Finset.mem_range.mpr hj, hc⟩)

theorem bucketFreqSum_le_total {n : Nat} {codes : Nat → Nat} {freq : Nat → Nat} {code : Nat} :
    bucketFreqSum n codes freq code ≤ ∑ i in Finset.range n, freq i := by
  unfold bucketFreqSum
  exact Finset.sum_le_sum_of_subset (Finset.filter_subset _ _)

theorem occupancy_insert_le {n j code : Nat} {c : Nat → Nat}
    (hj : j < n) (hc : c j ≠ code) : occupancy n c code + 1 ≤ n := by
  have hnot : j ∉ (Finset.range n).filter (fun i => c i = code) := by
    simp [Finset.mem_filter, hc]
  have hsub : insert j ((Finset.range n).filter (fun i => c i = code)) ⊆ Finset.range n := by
    intro x hx
    rcases Finset.mem_insert.mp hx with h | h
    · subst h; exact Finset.mem_range.mpr hj
    · exact Finset.filter_subset _ _ h
  calc occupancy n c code + 1
      = (insert j ((Finset.range n).filter (fun i => c i = code))).card :=
        (Finset.card_insert_of_not_mem hnot).symm
    _ ≤ (Finset.range n).card := Finset.card_le_card hsub
    _ = n := Finset.card_range n

theorem bucketFreqSum_insert_le {n j code : Nat} {c : Nat → Nat} {freq : Nat → Nat}
    (hj : j < n) (hc : c j ≠ code) :
    bucketFreqSum n c freq code + freq j ≤ ∑ i in Finset.range n, freq i := by
  have hnot : j ∉ (Finset.range n).filter (fun i => c i = code) := by
    simp [Finset.mem_filter, hc]
  have hsub : insert j ((Finset.range n).filter (fun i => c i = code)) ⊆ Finset.range n := by
    intro x hx
    rcases Finset.mem_insert.mp hx with h | h
    · subst h; exact Finset.mem_range.mpr hj
    · exact Finset.filter_subset _ _ h
  calc bucketFreqSum n c freq code + freq j
      = ∑ i in insert j ((Finset.range n).filter (fun i => c i = code)), freq i := by
        rw [Finset.sum_insert hnot]
        unfold bucketFreqSum
        omega
    _ ≤ ∑ i in Finset.range n, freq i :=
        Finset.sum_le_sum_of_subset hsub

/-!
How one item's code change moves the occupancies, the frequency sums
and the derived aggregate sums.
-/

theorem filter_range_update (n j v code : Nat) (c : Nat → Nat) (hj : j < n) :
    (Finset.range n).filter (fun i => Function.update c j v i = code) =
      if v = code then
        insert j (((Finset.range n).erase j).filter (fun i => c i = code))
      else ((Finset.range n).erase j).filter (fun i => c i = code) := by
  ext i
  by_cases hij : i = j
  · subst hij
    split_ifs with hv
    · simp [Finset.mem_filter, Finset.mem_range, hj, Function.update_same, hv]
    · simp [Finset.mem_filter, Finset.mem_range, hj, Function.update_same, hv,
        Finset.mem_erase]
  · split_ifs with hv
    · simp [Finset.mem_filter, Finset.mem_insert, Finset.mem_erase, hij,
        Function.update_noteq hij]
    · simp [Finset.mem_filter, Finset.mem_erase, hij, Function.update_noteq hij]

theorem filter_range_of_mem {n j code : Nat} {c : Nat → Nat} (hj : j < n) (h : c j = code) :
    (Finset.range n).filter (fun i => c i = code) =
      insert j (((Finset.range n).erase j).filter (fun i => c i = code)) := by
  rw [Finset.filter_erase, Finset.insert_erase]
  exact Finset.mem_filter.mpr ⟨Finset.mem_range.mpr hj, h⟩

theorem filter_range_of_not_mem {n j code : Nat} {c : Nat → Nat} (h : c j ≠ code) :
    (Finset.range n).filter (fun i => c i = code) =
      ((Finset.range n).erase j).filter (fun i => c i = code) := by
  rw [Finset.filter_erase, Finset.erase_eq_of_not_mem]
  intro hmem
  exact h (Finset.mem_filter.mp hmem).2

theorem occupancy_update_old {n j v : Nat} {c : Nat → Nat} (hj : j < n) (hv : v ≠ c j) :
    occupancy n (Function.update c j v) (c j) + 1 = occupancy n c (c j) := by
  unfold occupancy
  rw [filter_range_update n j v (c j) c hj, if_neg hv, filter_range_of_mem hj rfl,
    Finset.card_insert_of_not_mem (by simp)]

theorem occupancy_update_new {n j v : Nat} {c : Nat → Nat} (hj : j < n) (hv : v ≠ c j) :
    occupancy n (Function.update c j v) v = occupancy n c v + 1 := by
  unfold occupancy
  rw [filter_range_update n j v v c hj, if_pos rfl,
    Finset.card_insert_of_not_mem (by simp), filter_range_of_not_mem (Ne.symm hv)]

theorem occupancy_update_other {n j v code : Nat} {c : Nat → Nat}
    (h1 : code ≠ c j) (h2 : code ≠ v) :
    occupancy n (Function.update c j v) code = occupancy n c code := by
  unfold occupancy
  congr 1
  ext i
  by_cases hij : i = j
  · subst hij
    simp [Finset.mem_filter, Function.update_same, Ne.symm h1, Ne.symm h2]
  · simp [Finset.mem_filter, Function.update_noteq hij]

theorem bucketFreqSum_update_old {n j v : Nat} {c : Nat → Nat} {freq : Nat → Nat}
    (hj : j < n) (hv : v ≠ c j) :
    bucketFreqSum n (Function.update c j v) freq (c j) + freq j
      = bucketFreqSum n c freq (c j) := by
  unfold bucketFreqSum
  rw [filter_range_update n j v (c j) c hj, if_neg hv, filter_range_of_mem hj rfl,
    Finset.sum_insert (by simp)]
  omega

theorem bucketFreqSum_update_new {n j v : Nat} {c : Nat → Nat} {freq : Nat → Nat}
    (hj : j < n) (hv : v ≠ c j) :
    bucketFreqSum n (Function.update c j v) freq v
      = bucketFreqSum n c freq v + freq j := by
  unfold bucketFreqSum
  rw [filter_range_update n j v v c hj, if_pos rfl, Finset.sum_insert (by simp),
    filter_range_of_not_mem (Ne.symm hv)]
  omega

theorem bucketFreqSum_update_other {n j v code : Nat} {c : Nat → Nat} {freq : Nat → Nat}
    (h1 : code ≠ c j) (h2 : code ≠ v) :
    bucketFreqSum n (Function.update c j v) freq code = bucketFreqSum n c freq code := by
  unfold bucketFreqSum
  congr 1
  ext i
  by_cases hij : i = j
  · subst hij
    simp [Finset.mem_filter, Function.update_same, Ne.symm h1, Ne.symm h2]
  · simp [Finset.mem_filter, Function.update_noteq hij]

theorem sum_two_changed (m a b : Nat) (f g : Nat → Nat) (hab : a ≠ b)
    (ha : a < m) (hb : b < m) (h : ∀ c < m, c ≠ a → c ≠ b → f c = g c) :
    (∑ c in Finset.range m, g c) + f a + f b
      = (∑ c in Finset.range m, f c) + g a + g b := by
  have hbmem : b ∈ (Finset.range m).erase a :=
    Finset.mem_erase.mpr ⟨Ne.symm hab, Finset.mem_range.mpr hb⟩
  have hf1 : f a + ∑ x in (Finset.range m).erase a, f x = ∑ x in Finset.range m, f x :=
    Finset.add_sum_erase _ f (Finset.mem_range.mpr ha)
  have hf2 : f b + ∑ x in ((Finset.range m).erase a).erase b, f x
      = ∑ x in (Finset.range m).erase a, f x :=
    Finset.add_sum_erase _ f hbmem
  have hg1 : g a + ∑ x in (Finset.range m).erase a, g x = ∑ x in Finset.range m, g x :=
    Finset.add_sum_erase _ g (Finset.mem_range.mpr ha)
  have hg2 : g b + ∑ x in ((Finset.range m).erase a).erase b, g x
      = ∑ x in (Finset.range m).erase a, g x :=
    Finset.add_sum_erase _ g hbmem
  have hS : ∑ x in ((Finset.range m).erase a).erase b, f x
      = ∑ x in ((Finset.range m).erase a).erase b, g x := by
    apply Finset.sum_congr rfl
    intro x hx
    have hxb := (Finset.mem_erase.mp hx).1
    have hxa := (Finset.mem_erase.mp (Finset.mem_erase.mp hx).2).1
    have hxm := Finset.mem_range.mp (Finset.mem_erase.mp (Finset.mem_erase.mp hx).2).2
    exact h x hxm hxa hxb
  omega

theorem sum_one_changed_rat (m a : Nat) (f g : Nat → ℚ) (ha : a < m)
    (h : ∀ c < m, c ≠ a → f c = g c) :
    ∑ c in Finset.range m, g c = (∑ c in Finset.range m, f c) - f a + g a := by
  have hf1 : f a + ∑ x in (Finset.range m).erase a, f x = ∑ x in Finset.range m, f x :=
    Finset.add_sum_erase _ f (Finset.mem_range.mpr ha)
  have hg1 : g a + ∑ x in (Finset.range m).erase a, g x = ∑ x in Finset.range m, g x :=
    Finset.add_sum_erase _ g (Finset.mem_range.mpr ha)
  have hS : ∑ x in (Finset.range m).erase a, f x = ∑ x in (Finset.range m).erase a, g x := by
    apply Finset.sum_congr rfl
    intro x hx
    exact h x (Finset.mem_range.mp (Finset.mem_erase.mp hx).2) (Finset.mem_erase.mp hx).1
  linarith

theorem sum_occupancy_eq {n m : Nat} {c : Nat → Nat} (h : ∀ i < n, c i < m) :
    ∑ code in Finset.range m, occupancy n c code = n := by
  unfold occupancy
  have hcard := Finset.card_eq_sum_card_fiberwise
    (fun i hi => Finset.mem_range.mpr (h i (Finset.mem_range.mp hi)))
  rw [Finset.card_range] at hcard
  exact hcard.symm

theorem sum_bucketFreqSum_eq {n m : Nat} {c : Nat → Nat} {freq : Nat → Nat}
    (h : ∀ i < n, c i < m) :
    ∑ code in Finset.range m, bucketFreqSum n c freq code = ∑ i in Finset.range n, freq i := by
  unfold bucketFreqSum
  exact Finset.sum_fiberwise_of_maps_to
    (fun i hi => Finset.mem_range.mpr (h i (Finset.mem_range.mp hi))) freq

theorem excessCollisions_le {n m : Nat} {c : Nat → Nat} (h : ∀ i < n, c i < m) :
    excessCollisions n m c ≤ n := by
  unfold excessCollisions
  calc ∑ code in Finset.range m, (occupancy n c code - 1)
      ≤ ∑ code in Finset.range m, occupancy n c code :=
        Finset.sum_le_sum (fun i _ => Nat.sub_le _ _)
    _ = n := sum_occupancy_eq h

theorem collisionFreqTotal_le {n m : Nat} {c : Nat → Nat} {freq : Nat → Nat}
    (h : ∀ i < n, c i < m) :
    collisionFreqTotal n m c freq ≤ ∑ i in Finset.range n, freq i := by
  unfold collisionFreqTotal
  calc ∑ code in Finset.range m,
        (if 1 < occupancy n c code then bucketFreqSum n c freq code else 0)
      ≤ ∑ code in Finset.range m, bucketFreqSum n c freq code := by
        apply Finset.sum_le_sum
        intro i _
        split_ifs
        · exact le_rfl
        · exact Nat.zero_le _
    _ = ∑ i in Finset.range n, freq i := sum_bucketFreqSum_eq h

theorem collisionFreqTotal_eq_items {n m : Nat} {c : Nat → Nat} {freq : Nat → Nat}
    (h : ∀ i < n, c i < m) :
    collisionFreqTotal n m c freq = collisionFreqItems n c freq := by
  unfold collisionFreqTotal collisionFreqItems
  have hstep : ∀ code ∈ Finset.range m,
      (if 1 < occupancy n c code then bucketFreqSum n c freq code else 0) =
        ∑ i in (Finset.range n).filter (fun i => c i = code),
          (if 1 < occupancy n c (c i) then freq i else 0) := by
    intro code _
    by_cases h1 : 1 < occupancy n c code
    · rw [if_pos h1]
      unfold bucketFreqSum
      apply Finset.sum_congr rfl
      intro i hi
      rw [(Finset.mem_filter.mp hi).2, if_pos h1]
    · rw [if_neg h1]
      symm
      apply Finset.sum_eq_zero
      intro i hi
      rw [(Finset.mem_filter.mp hi).2, if_neg h1]
  rw [Finset.sum_congr rfl hstep]
  exact Finset.sum_fiberwise_of_maps_to
    (fun i hi => Finset.mem_range.mpr (h i (Finset.mem_range.mp hi))) _

/-!
Bucket Delta Engine: agreement with the spec's delta description, and
unreachability of the unsigned wrap under the bucket invariant.
-/

/-- C2: for distinct codes, within the machine-integer ranges the
invariant guarantees, `update_buckets_for_char` returns exactly the
deltas spec §4.4 describes and decrements/increments the two buckets'
occupancies and frequency sums accordingly. -/
theorem C2_bucket_delta_matches_spec (st : OptState) (old_code new_code freq : Nat)
    (hne : old_code ≠ new_code)
    (h1 : 1 ≤ st.buckets old_code) (h2 : st.buckets old_code < 65536)
    (h3 : st.buckets new_code + 1 < 65536)
    (h4 : freq ≤ st.bucket_freqs old_code) (h5 : st.bucket_freqs old_code < M63)
    (h6 : st.bucket_freqs new_code + freq < M63) :
    (update_buckets_for_char st old_code new_code freq).2 =
      bucketDeltaSpec (st.buckets old_code) (st.bucket_freqs old_code)
        (st.buckets new_code) (st.bucket_freqs new_code) freq ∧
    (update_buckets_for_char st old_code new_code freq).1.buckets old_code
      = st.buckets old_code - 1 ∧
    (update_buckets_for_char st old_code new_code freq).1.buckets new_code
      = st.buckets new_code + 1 ∧
    (update_buckets_for_char st old_code new_code freq).1.bucket_freqs old_code
      = st.bucket_freqs old_code - freq ∧
    (update_buckets_for_char st old_code new_code freq).1.bucket_freqs new_code
      = st.bucket_freqs new_code + freq := by
  have hfreq63 : freq < M63 := lt_of_le_of_lt h4 h5
  have hfs64 : st.bucket_freqs old_code < M64 := lt_trans h5 (by unfold M63 M64; omega)
  have hb_new : Function.update st.buckets old_code (u16wsub1 (st.buckets old_code)) new_code
      = st.buckets new_code := Function.update_noteq hne.symm _ _
  have hf_new : Function.update st.bucket_freqs old_code
      (u64sub (st.bucket_freqs old_code) freq) new_code
      = st.bucket_freqs new_code := Function.update_noteq hne.symm _ _
  have hb_old : ∀ v : Nat, Function.update
      (Function.update st.buckets old_code (u16wsub1 (st.buckets old_code))) new_code v old_code
      = u16wsub1 (st.buckets old_code) := fun v => by
    rw [Function.update_noteq hne, Function.update_same]
  have hf_old : ∀ v : Nat, Function.update
      (Function.update st.bucket_freqs old_code (u64sub (st.bucket_freqs old_code) freq))
      new_code v old_code
      = u64sub (st.bucket_freqs old_code) freq := fun v => by
    rw [Function.update_noteq hne, Function.update_same]
  unfold update_buckets_for_char bucketDeltaSpec
  simp only [hb_new, hf_new, Function.update_same, hb_old, hf_old]
  rw [u16wsub1_of h1 h2, u16wadd1_of h3, u64sub_of h4 hfs64,
      u64add_of (by unfold M63 M64 at *; omega),
      toI64_of_lt hfreq63, toI64_of_lt (lt_of_le_of_lt (Nat.sub_le _ _) h5),
      toI64_of_lt (by omega)]
  refine ⟨?_, rfl, rfl, rfl, rfl⟩
  split_ifs <;> simp_all <;> omega

/-- Witness for C2 at a concrete bucket state. -/
theorem C2_bucket_delta_matches_spec_witness :
    (update_buckets_for_char cSt 0 1 1).2 =
      bucketDeltaSpec (cSt.buckets 0) (cSt.bucket_freqs 0)
        (cSt.buckets 1) (cSt.bucket_freqs 1) 1 ∧
    (update_buckets_for_char cSt 0 1 1).1.buckets 0 = cSt.buckets 0 - 1 ∧
    (update_buckets_for_char cSt 0 1 1).1.buckets 1 = cSt.buckets 1 + 1 ∧
    (update_buckets_for_char cSt 0 1 1).1.bucket_freqs 0 = cSt.bucket_freqs 0 - 1 ∧
    (update_buckets_for_char cSt 0 1 1).1.bucket_freqs 1 = cSt.bucket_freqs 1 + 1 :=
  C2_bucket_delta_matches_spec cSt 0 1 1 (by decide) (by decide) (by decide)
    (by decide) (by decide) (by decide) (by decide)

/-- C8: under bucket invariant 1, with `old_code` the current code of
the processed item, neither the wrapping decrement of the old bucket's
occupancy nor the `u64` subtraction from its frequency sum can wrap:
the counters are positive enough and the wrapped results equal the
exact ones. -/
theorem C8_no_wrap_under_bucket_invariant (ctx : OptContext) (st : OptState)
    (j old_code new_code : Nat)
    (hb : ∀ code < ctx.n_codes, st.buckets code = occupancy ctx.n_items st.current_codes code)
    (hfq : ∀ code < ctx.n_codes,
      st.bucket_freqs code = bucketFreqSum ctx.n_items st.current_codes ctx.frequency code)
    (hsize : SizeWF ctx)
    (hj : j < ctx.n_items) (hold : st.current_codes j = old_code)
    (holdlt : old_code < ctx.n_codes) (hne : old_code ≠ new_code) :
    1 ≤ st.buckets old_code ∧
    ctx.frequency j ≤ st.bucket_freqs old_code ∧
    (update_buckets_for_char st old_code new_code (ctx.frequency j)).1.buckets old_code
      = st.buckets old_code - 1 ∧
    (update_buckets_for_char st old_code new_code (ctx.frequency j)).1.bucket_freqs old_code
      = st.bucket_freqs old_code - ctx.frequency j := by
  have hb_old := hb old_code holdlt
  have hfq_old := hfq old_code holdlt
  have hocc1 : 1 ≤ st.buckets old_code := by
    rw [hb_old]; exact occupancy_pos hj hold
  have hocc2 : st.buckets old_code < 65536 := by
    rw [hb_old]
    exact lt_of_le_of_lt occupancy_le hsize.1
  have hfs1 : ctx.frequency j ≤ st.bucket_freqs old_code := by
    rw [hfq_old]; exact bucketFreqSum_ge hj hold
  have hfs2 : st.bucket_freqs old_code < M64 := by
    rw [hfq_old]
    have := @bucketFreqSum_le_total ctx.n_items st.current_codes ctx.frequency old_code
    have h2 := hsize.2
    unfold totalFreq at h2
    unfold M63 M64 at *
    omega
  refine ⟨hocc1, hfs1, ?_, ?_⟩
  · unfold update_buckets_for_char
    simp only [Function.update_noteq hne, Function.update_same]
    exact u16wsub1_of hocc1 hocc2
  · unfold update_buckets_for_char
    simp only [Function.update_noteq hne, Function.update_same]
    exact u64sub_of hfs1 hfs2

/-- Witness for C8 at a concrete invariant-satisfying state. -/
theorem C8_no_wrap_under_bucket_invariant_witness :
    1 ≤ cSt.buckets 0 ∧
    cCtx.frequency 0 ≤ cSt.bucket_freqs 0 ∧
    (update_buckets_for_char cSt 0 1 (cCtx.frequency 0)).1.buckets 0 = cSt.buckets 0 - 1 ∧
    (update_buckets_for_char cSt 0 1 (cCtx.frequency 0)).1.bucket_freqs 0
      = cSt.bucket_freqs 0 - cCtx.frequency 0 :=
  C8_no_wrap_under_bucket_invariant cCtx cSt 0 0 1 (by decide) (by decide)
    (by decide) (by decide) (by decide) (by decide) (by decide)

/-!
Move Evaluator: fast rejection, acceptance rule, RNG consumption.
-/

theorem fastRejected_spec (ctx : OptContext) (assignment : Nat → Nat) (r1 r2 : Nat) :
    fastRejected ctx assignment r1 r2 = true ↔
      assignment r1 = assignment r2 ∨
      ctx.dynamic_groups r1 (assignment r2) = false ∨
      ctx.dynamic_groups r2 (assignment r1) = false := by
  unfold fastRejected
  simp only [Bool.or_eq_true, beq_iff_eq, Bool.not_eq_true']
  exact or_assoc

theorem try_swap_of_fastRejected (ctx : OptContext) (st : OptState)
    (assignment : Nat → Nat) (r1 r2 : Nat) (temp : ℚ) (rng : Rng)
    (h : fastRejected ctx assignment r1 r2 = true) :
    try_swap_optimized ctx st assignment r1 r2 temp rng = ⟨false, st, assignment, rng⟩ := by
  unfold try_swap_optimized
  simp [h]

theorem try_swap_not_fastRejected (ctx : OptContext) (st : OptState)
    (assignment : Nat → Nat) (r1 r2 : Nat) (temp : ℚ) (rng : Rng)
    (hf : fastRejected ctx assignment r1 r2 = false) :
    try_swap_optimized ctx st assignment r1 r2 temp rng =
      (if swap_delta ctx st assignment r1 r2 ≤ 0 then
        ⟨true, update_swap_diff_fast ctx st (swappedAssignment assignment r1 r2)
          (affectedUnion ctx r1 r2), swappedAssignment assignment r1 r2, rng⟩
      else if rng.draws rng.pos < ctx.fexp (-(swap_delta ctx st assignment r1 r2) / temp) then
        ⟨true, update_swap_diff_fast ctx st (swappedAssignment assignment r1 r2)
          (affectedUnion ctx r1 r2), swappedAssignment assignment r1 r2,
          ⟨rng.draws, rng.pos + 1⟩⟩
      else
        ⟨false,
          restore_swap_snapshot
            (update_swap_diff_fast ctx st (swappedAssignment assignment r1 r2)
              (affectedUnion ctx r1 r2))
            (create_swap_snapshot st (affectedUnion ctx r1 r2)),
          Function.update (Function.update (swappedAssignment assignment r1 r2) r1
            (assignment r1)) r2 (assignment r2),
          ⟨rng.draws, rng.pos + 1⟩⟩) := by
  unfold try_swap_optimized
  rw [hf]
  rfl

/-- C5: a call with `role_a == role_b`, or where either role is not
permitted to hold the other's current key, returns `false` and leaves
the assignment, the Optimizer State and the random source untouched. -/
theorem C5_fast_rejection_no_mutation (ctx : OptContext) (st : OptState)
    (assignment : Nat → Nat) (r1 r2 : Nat) (temp : ℚ) (rng : Rng)
    (h : r1 = r2 ∨ ctx.dynamic_groups r1 (assignment r2) = false ∨
         ctx.dynamic_groups r2 (assignment r1) = false) :
    try_swap_optimized ctx st assignment r1 r2 temp rng = ⟨false, st, assignment, rng⟩ := by
  apply try_swap_of_fastRejected
  rw [fastRejected_spec]
  rcases h with h | h | h
  · exact Or.inl (by rw [h])
  · exact Or.inr (Or.inl h)
  · exact Or.inr (Or.inr h)

/-- Witness for C5 at a concrete self-swap. -/
theorem C5_fast_rejection_no_mutation_witness :
    try_swap_optimized wCtx wSt wAsg 0 0 1 wRng = ⟨false, wSt, wAsg, wRng⟩ :=
  C5_fast_rejection_no_mutation wCtx wSt wAsg 0 0 1 wRng (Or.inl rfl)

/-- C9: two distinct roles currently holding equal keys are rejected
with no mutation — the fast-rejection test compares the keys, not the
role indices. -/
theorem C9_equal_keys_rejected (ctx : OptContext) (st : OptState)
    (assignment : Nat → Nat) (r1 r2 : Nat) (temp : ℚ) (rng : Rng)
    (_hne : r1 ≠ r2) (h : assignment r1 = assignment r2) :
    try_swap_optimized ctx st assignment r1 r2 temp rng = ⟨false, st, assignment, rng⟩ := by
  apply try_swap_of_fastRejected
  rw [fastRejected_spec]
  exact Or.inl h

/-- Witness for C9 at two distinct roles with equal keys. -/
theorem C9_equal_keys_rejected_witness :
    try_swap_optimized wCtx wSt wAsgEq 0 1 1 wRng = ⟨false, wSt, wAsgEq, wRng⟩ :=
  C9_equal_keys_rejected wCtx wSt wAsgEq 0 1 1 wRng (by decide) rfl

/-- C6: when the newly derived code of an affected item equals its
cached code, the diff step is the identity on state and accumulators —
the cached key list and equivalence contributions stay as they are and
nothing is contributed to any accumulator, even if the newly derived
key list differs from the cached one. -/
theorem C6_equal_code_skips_item (ctx : OptContext) (assignment : Nat → Nat)
    (st : OptState) (l : DiffLocals) (char_idx : Nat)
    (h : (ctx.calc_code_and_keys char_idx assignment).1 = st.current_codes char_idx) :
    diffStep ctx assignment (st, l) char_idx = (st, l) := by
  unfold diffStep
  simp [h.symm]

/-- Witness for C6: the derived key list differs from the cached one,
yet the step is the identity because the code agrees. -/
theorem C6_equal_code_skips_item_witness :
    diffStep wCtxKeys wAsg (wSt, initLocals wSt) 0 = (wSt, initLocals wSt) ∧
    (wCtxKeys.calc_code_and_keys 0 wAsg).2 ≠ wSt.current_keys 0 :=
  ⟨C6_equal_code_skips_item wCtxKeys wAsg wSt (initLocals wSt) 0 rfl, by decide⟩

/-- C10: the random source is advanced exactly when the call passes the
fast rejection and computes `delta > 0`; fast rejections and accepted
improving moves leave the RNG untouched. -/
theorem C10_rng_consumed_iff_delta_pos (ctx : OptContext) (st : OptState)
    (assignment : Nat → Nat) (r1 r2 : Nat) (temp : ℚ) (rng : Rng) :
    (try_swap_optimized ctx st assignment r1 r2 temp rng).rng =
      (if fastRejected ctx assignment r1 r2 then rng
       else if swap_delta ctx st assignment r1 r2 ≤ 0 then rng
       else ⟨rng.draws, rng.pos + 1⟩) := by
  by_cases hf : fastRejected ctx assignment r1 r2
  · rw [try_swap_of_fastRejected ctx st assignment r1 r2 temp rng hf]
    simp [hf]
  · have hf' : fastRejected ctx assignment r1 r2 = false := by
      simpa using hf
    rw [try_swap_not_fastRejected ctx st assignment r1 r2 temp rng hf']
    simp only [hf', Bool.false_eq_true, if_false]
    by_cases hd : swap_delta ctx st assignment r1 r2 ≤ 0
    · simp [hd]
    · simp only [hd, if_false]
      by_cases hu : rng.draws rng.pos < ctx.fexp (-(swap_delta ctx st assignment r1 r2) / temp)
      · simp [hu]
      · simp [hu]

/-- C4: a call that reaches the acceptance decision accepts exactly
when `delta ≤ 0`, or `delta > 0` and the single uniform draw is
strictly below `exp(-delta / temperature)`; in particular `delta ≤ 0`
always accepts. -/
theorem C4_metropolis_acceptance_iff (ctx : OptContext) (st : OptState)
    (assignment : Nat → Nat) (r1 r2 : Nat) (temp : ℚ) (rng : Rng)
    (hf : fastRejected ctx assignment r1 r2 = false) :
    (try_swap_optimized ctx st assignment r1 r2 temp rng).accepted = true ↔
      (swap_delta ctx st assignment r1 r2 ≤ 0 ∨
       (0 < swap_delta ctx st assignment r1 r2 ∧
        rng.draws rng.pos < ctx.fexp (-(swap_delta ctx st assignment r1 r2) / temp))) := by
  rw [try_swap_not_fastRejected ctx st assignment r1 r2 temp rng hf]
  by_cases hd : swap_delta ctx st assignment r1 r2 ≤ 0
  · simp [hd]
  · have hpos : 0 < swap_delta ctx st assignment r1 r2 := lt_of_not_le hd
    simp only [hd, if_false]
    by_cases hu : rng.draws rng.pos < ctx.fexp (-(swap_delta ctx st assignment r1 r2) / temp)
    · simp [hu, hpos]
    · simp [hu, hd]

/-- Witness for C4 at a concrete non-fast-rejected call. -/
theorem C4_metropolis_acceptance_iff_witness :
    (try_swap_optimized wCtx wSt wAsg 0 1 1 wRng).accepted = true ↔
      (swap_delta wCtx wSt wAsg 0 1 ≤ 0 ∨
       (0 < swap_delta wCtx wSt wAsg 0 1 ∧
        wRng.draws wRng.pos < wCtx.fexp (-(swap_delta wCtx wSt wAsg 0 1) / 1))) :=
  C4_metropolis_acceptance_iff wCtx wSt wAsg 0 1 1 wRng (by decide)

/-!
Refinement: the batched commit equals the naive per-item commit.
-/

theorem naiveStep_writeback (ctx : OptContext) (assignment : Nat → Nat)
    (st : OptState) (l : DiffLocals) (i : Nat) :
    naiveStep ctx assignment (writeback st l) i =
      writeback (diffStep ctx assignment (st, l) i).1
        (diffStep ctx assignment (st, l) i).2 := by
  unfold naiveStep diffStep writeback update_buckets_for_char
  by_cases h : st.current_codes i = (ctx.calc_code_and_keys i assignment).1
  · simp only [h, if_pos]
  · simp only [h, if_neg, not_false_iff]

theorem foldl_naive_writeback (ctx : OptContext) (assignment : Nat → Nat) :
    ∀ (affected : List Nat) (st : OptState) (l : DiffLocals),
      update_swap_diff_naive ctx (writeback st l) assignment affected =
        writeback (affected.foldl (diffStep ctx assignment) (st, l)).1
          (affected.foldl (diffStep ctx assignment) (st, l)).2 := by
  intro affected
  induction affected with
  | nil => intro st l; rfl
  | cons a as ih =>
    intro st l
    have hstep := naiveStep_writeback ctx assignment st l a
    calc update_swap_diff_naive ctx (writeback st l) assignment (a :: as)
        = update_swap_diff_naive ctx (naiveStep ctx assignment (writeback st l) a)
            assignment as := rfl
      _ = update_swap_diff_naive ctx
            (writeback (diffStep ctx assignment (st, l) a).1
              (diffStep ctx assignment (st, l) a).2) assignment as := by rw [hstep]
      _ = writeback (as.foldl (diffStep ctx assignment)
              ((diffStep ctx assignment (st, l) a).1,
               (diffStep ctx assignment (st, l) a).2)).1
            (as.foldl (diffStep ctx assignment)
              ((diffStep ctx assignment (st, l) a).1,
               (diffStep ctx assignment (st, l) a).2)).2 :=
          ih (diffStep ctx assignment (st, l) a).1 (diffStep ctx assignment (st, l) a).2
      _ = writeback ((a :: as).foldl (diffStep ctx assignment) (st, l)).1
            ((a :: as).foldl (diffStep ctx assignment) (st, l)).2 := rfl

/-- C7: the batched-commit diff updater — local accumulators written
back once at the end — produces exactly the same Optimizer State as the
naive variant that writes every aggregate straight into the global
state after each item. -/
theorem C7_batched_commit_refines_naive (ctx : OptContext) (st : OptState)
    (assignment : Nat → Nat) (affected_chars : List Nat) :
    update_swap_diff_fast ctx st assignment affected_chars =
      update_swap_diff_naive ctx st assignment affected_chars := by
  have h0 : writeback st (initLocals st) = st := rfl
  calc update_swap_diff_fast ctx st assignment affected_chars
      = writeback (affected_chars.foldl (diffStep ctx assignment) (st, initLocals st)).1
          (affected_chars.foldl (diffStep ctx assignment) (st, initLocals st)).2 := rfl
    _ = update_swap_diff_naive ctx (writeback st (initLocals st)) assignment affected_chars :=
        (foldl_naive_writeback ctx assignment affected_chars st (initLocals st)).symm
    _ = update_swap_diff_naive ctx st assignment affected_chars := by rw [h0]

/-!
Exact characterisation of one diff-loop iteration, used by the
invariant-preservation proof.
-/

theorem update_buckets_exact (st : OptState) (old_code new_code freq : Nat)
    (hne : old_code ≠ new_code)
    (h1 : 1 ≤ st.buckets old_code) (h2 : st.buckets old_code < 65536)
    (h3 : st.buckets new_code + 1 < 65536)
    (h4 : freq ≤ st.bucket_freqs old_code) (h5 : st.bucket_freqs old_code < M63)
    (h6 : st.bucket_freqs new_code + freq < M63) :
    update_buckets_for_char st old_code new_code freq =
      ({ st with
          buckets := Function.update (Function.update st.buckets old_code
            (st.buckets old_code - 1)) new_code (st.buckets new_code + 1),
          bucket_freqs := Function.update (Function.update st.bucket_freqs old_code
            (st.bucket_freqs old_code - freq)) new_code
            (st.bucket_freqs new_code + freq) },
       bucketDeltaSpec (st.buckets old_code) (st.bucket_freqs old_code)
         (st.buckets new_code) (st.bucket_freqs new_code) freq) := by
  have hfreq63 : freq < M63 := lt_of_le_of_lt h4 h5
  have hfs64 : st.bucket_freqs old_code < M64 := lt_trans h5 (by unfold M63 M64; omega)
  have hb_new : Function.update st.buckets old_code (u16wsub1 (st.buckets old_code)) new_code
      = st.buckets new_code := Function.update_noteq hne.symm _ _
  have hf_new : Function.update st.bucket_freqs old_code
      (u64sub (st.bucket_freqs old_code) freq) new_code
      = st.bucket_freqs new_code := Function.update_noteq hne.symm _ _
  unfold update_buckets_for_char bucketDeltaSpec
  simp only [hb_new, hf_new]
  rw [u16wsub1_of h1 h2, u16wadd1_of h3, u64sub_of h4 hfs64,
      u64add_of (by unfold M63 M64 at *; omega),
      toI64_of_lt hfreq63, toI64_of_lt (lt_of_le_of_lt (Nat.sub_le _ _) h5),
      toI64_of_lt (by omega)]
  refine Prod.ext rfl (Prod.ext ?_ ?_)
  · split_ifs <;> simp_all
  · split_ifs <;> simp_all <;> omega

theorem bucketDeltaSpec_fst (oo fo nn fn fr : Nat) :
    (bucketDeltaSpec oo fo nn fn fr).1 =
      (if 1 < oo then (-1 : Int) else 0) + (if 1 ≤ nn then (1 : Int) else 0) := by
  unfold bucketDeltaSpec
  split_ifs <;> rfl

theorem bucketDeltaSpec_snd (oo fo nn fn fr : Nat) :
    (bucketDeltaSpec oo fo nn fn fr).2 =
      (if 1 < oo then
        (if oo = 2 then -(fr : Int) - ((fo - fr : Nat) : Int) else -(fr : Int))
      else 0) +
      (if 1 ≤ nn then (if nn = 1 then (fr : Int) + (fn : Int) else (fr : Int)) else 0) := by
  unfold bucketDeltaSpec
  split_ifs <;> rfl

theorem diffStep_ne_state (ctx : OptContext) (assignment : Nat → Nat) (st : OptState)
    (l : DiffLocals) (j : Nat)
    (hne : st.current_codes j ≠ (ctx.calc_code_and_keys j assignment).1) :
    (diffStep ctx assignment (st, l) j).1 =
      { (update_buckets_for_char st (st.current_codes j)
          (ctx.calc_code_and_keys j assignment).1 (ctx.frequency j)).1 with
        current_equiv_contrib := Function.update st.current_equiv_contrib j
          (ctx.calc_key_avg_equiv_inline (ctx.calc_code_and_keys j assignment).2
            * (ctx.frequency j : ℚ)),
        current_equiv_sq_contrib := Function.update st.current_equiv_sq_contrib j
          (ctx.calc_key_avg_equiv_inline (ctx.calc_code_and_keys j assignment).2
            * ctx.calc_key_avg_equiv_inline (ctx.calc_code_and_keys j assignment).2
            * (ctx.frequency j : ℚ)),
        current_codes := Function.update st.current_codes j
          (ctx.calc_code_and_keys j assignment).1,
        current_keys := Function.update st.current_keys j
          (ctx.calc_code_and_keys j assignment).2 } := by
  unfold diffStep
  rw [if_neg hne]
  rfl

theorem diffStep_ne_locals (ctx : OptContext) (assignment : Nat → Nat) (st : OptState)
    (l : DiffLocals) (j : Nat)
    (hne : st.current_codes j ≠ (ctx.calc_code_and_keys j assignment).1) :
    (diffStep ctx assignment (st, l) j).2 =
      ⟨toU64 (toI64 l.local_collisions +
          (update_buckets_for_char st (st.current_codes j)
            (ctx.calc_code_and_keys j assignment).1 (ctx.frequency j)).2.1),
       toU64 (toI64 l.local_collision_freq +
          (update_buckets_for_char st (st.current_codes j)
            (ctx.calc_code_and_keys j assignment).1 (ctx.frequency j)).2.2),
       l.local_equiv_weighted +
         (ctx.calc_key_avg_equiv_inline (ctx.calc_code_and_keys j assignment).2
            * (ctx.frequency j : ℚ) - st.current_equiv_contrib j),
       l.local_equiv_sq_weighted +
         (ctx.calc_key_avg_equiv_inline (ctx.calc_code_and_keys j assignment).2
            * ctx.calc_key_avg_equiv_inline (ctx.calc_code_and_keys j assignment).2
            * (ctx.frequency j : ℚ) - st.current_equiv_sq_contrib j),
       addUsage (ctx.frequency j : ℚ)
         (subUsage (ctx.frequency j : ℚ) l.local_key_usage (st.current_keys j))
         (ctx.calc_code_and_keys j assignment).2⟩ := by
  unfold diffStep
  rw [if_neg hne]
  rfl

theorem subUsage_apply (f : ℚ) :
    ∀ (keys : List Nat) (u : Nat → ℚ) (k : Nat),
      subUsage f u keys k = u k - (keys.count k : ℚ) * f := by
  intro keys
  induction keys with
  | nil =>
    intro u k
    simp [subUsage]
  | cons a as ih =>
    intro u k
    show subUsage f (Function.update u a (u a - f)) as k = _
    rw [ih]
    by_cases hk : k = a
    · subst hk
      rw [Function.update_same]
      simp [List.count_cons]
      ring
    · rw [Function.update_noteq hk]
      simp [List.count_cons, hk]

theorem addUsage_apply (f : ℚ) :
    ∀ (keys : List Nat) (u : Nat → ℚ) (k : Nat),
      addUsage f u keys k = u k + (keys.count k : ℚ) * f := by
  intro keys
  induction keys with
  | nil =>
    intro u k
    simp [addUsage]
  | cons a as ih =>
    intro u k
    show addUsage f (Function.update u a (u a + f)) as k = _
    rw [ih]
    by_cases hk : k = a
    · subst hk
      rw [Function.update_same]
      simp [List.count_cons]
      ring
    · rw [Function.update_noteq hk]
      simp [List.count_cons, hk]

/-- One diff-loop iteration preserves the mid-loop invariant: the
threaded buckets stay consistent with the threaded code cache, and the
local accumulators keep carrying the from-scratch aggregate values. -/
theorem diffStep_preserves (ctx : OptContext) (assignment : Nat → Nat)
    (st : OptState) (l : DiffLocals) (j : Nat)
    (hsize : SizeWF ctx) (hcalc : CalcWF ctx assignment) (hj : j < ctx.n_items)
    (hinv : InvMid ctx (st, l)) :
    InvMid ctx (diffStep ctx assignment (st, l) j) := by
  obtain ⟨hcodes, hkeys, ⟨hb, hfq⟩, hlc, hlf, hlu⟩ := hinv
  dsimp only at hcodes hkeys hb hfq hlc hlf hlu
  by_cases heq : st.current_codes j = (ctx.calc_code_and_keys j assignment).1
  · have hskip : diffStep ctx assignment (st, l) j = (st, l) := by
      unfold diffStep
      rw [if_pos heq]
    rw [hskip]
    exact ⟨hcodes, hkeys, ⟨hb, hfq⟩, hlc, hlf, hlu⟩
  · have hnew_lt : (ctx.calc_code_and_keys j assignment).1 < ctx.n_codes := (hcalc j hj).1
    have hold_lt : st.current_codes j < ctx.n_codes := hcodes j hj
    have hb_old := hb (st.current_codes j) hold_lt
    have hb_new := hb (ctx.calc_code_and_keys j assignment).1 hnew_lt
    have hfq_old := hfq (st.current_codes j) hold_lt
    have hfq_new := hfq (ctx.calc_code_and_keys j assignment).1 hnew_lt
    have hocc1 : 1 ≤ occupancy ctx.n_items st.current_codes (st.current_codes j) :=
      occupancy_pos hj rfl
    have hocc_le : occupancy ctx.n_items st.current_codes (st.current_codes j) ≤ ctx.n_items :=
      occupancy_le
    have hocc_new_le :
        occupancy ctx.n_items st.current_codes (ctx.calc_code_and_keys j assignment).1 + 1
          ≤ ctx.n_items := occupancy_insert_le hj heq
    have hfs_ge : ctx.frequency j ≤
        bucketFreqSum ctx.n_items st.current_codes ctx.frequency (st.current_codes j) :=
      bucketFreqSum_ge hj rfl
    have hfs_le : bucketFreqSum ctx.n_items st.current_codes ctx.frequency
        (st.current_codes j) ≤ ∑ i in Finset.range ctx.n_items, ctx.frequency i :=
      bucketFreqSum_le_total
    have hfs_new_le : bucketFreqSum ctx.n_items st.current_codes ctx.frequency
          (ctx.calc_code_and_keys j assignment).1 + ctx.frequency j
        ≤ ∑ i in Finset.range ctx.n_items, ctx.frequency i :=
      bucketFreqSum_insert_le hj heq
    have hn16 : ctx.n_items < 65536 := hsize.1
    have hT63 : ∑ i in Finset.range ctx.n_items, ctx.frequency i < M63 := hsize.2
    have hub := update_buckets_exact st (st.current_codes j)
      (ctx.calc_code_and_keys j assignment).1 (ctx.frequency j) heq
      (by rw [hb_old]; exact hocc1)
      (by rw [hb_old]; omega)
      (by rw [hb_new]; omega)
      (by rw [hfq_old]; exact hfs_ge)
      (by rw [hfq_old]; omega)
      (by rw [hfq_new]; omega)
    have hcodes' : (diffStep ctx assignment (st, l) j).1.current_codes
        = Function.update st.current_codes j (ctx.calc_code_and_keys j assignment).1 := by
      rw [diffStep_ne_state ctx assignment st l j heq]
    have hkeys' : (diffStep ctx assignment (st, l) j).1.current_keys
        = Function.update st.current_keys j (ctx.calc_code_and_keys j assignment).2 := by
      rw [diffStep_ne_state ctx assignment st l j heq]
    have hbuckets' : (diffStep ctx assignment (st, l) j).1.buckets
        = Function.update (Function.update st.buckets (st.current_codes j)
            (st.buckets (st.current_codes j) - 1)) (ctx.calc_code_and_keys j assignment).1
            (st.buckets (ctx.calc_code_and_keys j assignment).1 + 1) := by
      rw [diffStep_ne_state ctx assignment st l j heq, hub]
    have hbfreqs' : (diffStep ctx assignment (st, l) j).1.bucket_freqs
        = Function.update (Function.update st.bucket_freqs (st.current_codes j)
            (st.bucket_freqs (st.current_codes j) - ctx.frequency j))
            (ctx.calc_code_and_keys j assignment).1
            (st.bucket_freqs (ctx.calc_code_and_keys j assignment).1 + ctx.frequency j) := by
      rw [diffStep_ne_state ctx assignment st l j heq, hub]
    have hlc' : (diffStep ctx assignment (st, l) j).2.local_collisions
        = toU64 (toI64 l.local_collisions +
            (bucketDeltaSpec (st.buckets (st.current_codes j))
              (st.bucket_freqs (st.current_codes j))
              (st.buckets (ctx.calc_code_and_keys j assignment).1)
              (st.bucket_freqs (ctx.calc_code_and_keys j assignment).1)
              (ctx.frequency j)).1) := by
      rw [diffStep_ne_locals ctx assignment st l j heq, hub]
    have hlf' : (diffStep ctx assignment (st, l) j).2.local_collision_freq
        = toU64 (toI64 l.local_collision_freq +
            (bucketDeltaSpec (st.buckets (st.current_codes j))
              (st.bucket_freqs (st.current_codes j))
              (st.buckets (ctx.calc_code_and_keys j assignment).1)
              (st.bucket_freqs (ctx.calc_code_and_keys j assignment).1)
              (ctx.frequency j)).2) := by
      rw [diffStep_ne_locals ctx assignment st l j heq, hub]
    have hlu' : (diffStep ctx assignment (st, l) j).2.local_key_usage
        = addUsage (ctx.frequency j : ℚ)
            (subUsage (ctx.frequency j : ℚ) l.local_key_usage (st.current_keys j))
            (ctx.calc_code_and_keys j assignment).2 := by
      rw [diffStep_ne_locals ctx assignment st l j heq]
    have hcodes_upd : ∀ i < ctx.n_items,
        Function.update st.current_codes j (ctx.calc_code_and_keys j assignment).1 i
          < ctx.n_codes := by
      intro i hi
      rw [Function.update_apply]
      split_ifs
      · exact hnew_lt
      · exact hcodes i hi
    have hocc_upd_old : occupancy ctx.n_items
          (Function.update st.current_codes j (ctx.calc_code_and_keys j assignment).1)
          (st.current_codes j) + 1
        = occupancy ctx.n_items st.current_codes (st.current_codes j) :=
      occupancy_update_old hj (Ne.symm heq)
    have hocc_upd_new : occupancy ctx.n_items
          (Function.update st.current_codes j (ctx.calc_code_and_keys j assignment).1)
          (ctx.calc_code_and_keys j assignment).1
        = occupancy ctx.n_items st.current_codes (ctx.calc_code_and_keys j assignment).1 + 1 :=
      occupancy_update_new hj (Ne.symm heq)
    have hfs_upd_old : bucketFreqSum ctx.n_items
          (Function.update st.current_codes j (ctx.calc_code_and_keys j assignment).1)
          ctx.frequency (st.current_codes j) + ctx.frequency j
        = bucketFreqSum ctx.n_items st.current_codes ctx.frequency (st.current_codes j) :=
      bucketFreqSum_update_old hj (Ne.symm heq)
    have hfs_upd_new : bucketFreqSum ctx.n_items
          (Function.update st.current_codes j (ctx.calc_code_and_keys j assignment).1)
          ctx.frequency (ctx.calc_code_and_keys j assignment).1
        = bucketFreqSum ctx.n_items st.current_codes ctx.frequency
            (ctx.calc_code_and_keys j assignment).1 + ctx.frequency j :=
      bucketFreqSum_update_new hj (Ne.symm heq)
    refine ⟨?_, ?_, ⟨?_, ?_⟩, ?_, ?_, ?_⟩
    · intro i hi
      rw [hcodes']
      exact hcodes_upd i hi
    · intro i hi k hk
      rw [hkeys', Function.update_apply] at hk
      by_cases hij : i = j
      · rw [if_pos hij] at hk
        exact (hcalc j hj).2 k hk
      · rw [if_neg hij] at hk
        exact hkeys i hi k hk
    · intro code hcode
      rw [hbuckets', hcodes']
      by_cases h1 : code = (ctx.calc_code_and_keys j assignment).1
      · subst h1
        rw [Function.update_same, hocc_upd_new, hb_new]
      · by_cases h2 : code = st.current_codes j
        · subst h2
          rw [Function.update_noteq h1, Function.update_same, hb_old]
          omega
        · rw [Function.update_noteq h1, Function.update_noteq h2,
            occupancy_update_other h2 h1]
          exact hb code hcode
    · intro code hcode
      rw [hbfreqs', hcodes']
      by_cases h1 : code = (ctx.calc_code_and_keys j assignment).1
      · subst h1
        rw [Function.update_same, hfs_upd_new, hfq_new]
      · by_cases h2 : code = st.current_codes j
        · subst h2
          rw [Function.update_noteq h1, Function.update_same, hfq_old]
          omega
        · rw [Function.update_noteq h1, Function.update_noteq h2,
            bucketFreqSum_update_other h2 h1]
          exact hfq code hcode
    · rw [hlc', hcodes', hlc, bucketDeltaSpec_fst, hb_old, hb_new]
      have hE_le : excessCollisions ctx.n_items ctx.n_codes st.current_codes ≤ ctx.n_items :=
        excessCollisions_le hcodes
      have hE'_le : excessCollisions ctx.n_items ctx.n_codes
          (Function.update st.current_codes j (ctx.calc_code_and_keys j assignment).1)
          ≤ ctx.n_items := excessCollisions_le hcodes_upd
      have hEsum : excessCollisions ctx.n_items ctx.n_codes st.current_codes +
            (occupancy ctx.n_items
              (Function.update st.current_codes j (ctx.calc_code_and_keys j assignment).1)
              (st.current_codes j) - 1) +
            (occupancy ctx.n_items
              (Function.update st.current_codes j (ctx.calc_code_and_keys j assignment).1)
              (ctx.calc_code_and_keys j assignment).1 - 1)
          = excessCollisions ctx.n_items ctx.n_codes
              (Function.update st.current_codes j (ctx.calc_code_and_keys j assignment).1) +
            (occupancy ctx.n_items st.current_codes (st.current_codes j) - 1) +
            (occupancy ctx.n_items st.current_codes
              (ctx.calc_code_and_keys j assignment).1 - 1) := by
        unfold excessCollisions
        exact sum_two_changed ctx.n_codes (st.current_codes j)
          (ctx.calc_code_and_keys j assignment).1
          (fun code => occupancy ctx.n_items
            (Function.update st.current_codes j (ctx.calc_code_and_keys j assignment).1)
            code - 1)
          (fun code => occupancy ctx.n_items st.current_codes code - 1)
          heq hold_lt hnew_lt
          (fun code _ h2 h3 => by dsimp only; rw [occupancy_update_other h2 h3])
      rw [toI64_of_lt (by unfold M63; omega)]
      apply toU64_of_eq
      · split_ifs <;> omega
      · unfold M64; omega
    · rw [hlf', hcodes', hlf, bucketDeltaSpec_snd, hb_old, hb_new, hfq_old, hfq_new]
      have hcf_le : collisionFreqTotal ctx.n_items ctx.n_codes st.current_codes ctx.frequency
          ≤ ∑ i in Finset.range ctx.n_items, ctx.frequency i := collisionFreqTotal_le hcodes
      have hcf'_le : collisionFreqTotal ctx.n_items ctx.n_codes
            (Function.update st.current_codes j (ctx.calc_code_and_keys j assignment).1)
            ctx.frequency
          ≤ ∑ i in Finset.range ctx.n_items, ctx.frequency i :=
        collisionFreqTotal_le hcodes_upd
      have hFsum : collisionFreqTotal ctx.n_items ctx.n_codes st.current_codes ctx.frequency +
            (if 1 < occupancy ctx.n_items
                (Function.update st.current_codes j (ctx.calc_code_and_keys j assignment).1)
                (st.current_codes j) then
              bucketFreqSum ctx.n_items
                (Function.update st.current_codes j (ctx.calc_code_and_keys j assignment).1)
                ctx.frequency (st.current_codes j) else 0) +
            (if 1 < occupancy ctx.n_items
                (Function.update st.current_codes j (ctx.calc_code_and_keys j assignment).1)
                (ctx.calc_code_and_keys j assignment).1 then
              bucketFreqSum ctx.n_items
                (Function.update st.current_codes j (ctx.calc_code_and_keys j assignment).1)
                ctx.frequency (ctx.calc_code_and_keys j assignment).1 else 0)
          = collisionFreqTotal ctx.n_items ctx.n_codes
              (Function.update st.current_codes j (ctx.calc_code_and_keys j assignment).1)
              ctx.frequency +
            (if 1 < occupancy ctx.n_items st.current_codes (st.current_codes j) then
              bucketFreqSum ctx.n_items st.current_codes ctx.frequency (st.current_codes j)
            else 0) +
            (if 1 < occupancy ctx.n_items st.current_codes
                (ctx.calc_code_and_keys j assignment).1 then
              bucketFreqSum ctx.n_items st.current_codes ctx.frequency
                (ctx.calc_code_and_keys j assignment).1 else 0) := by
        unfold collisionFreqTotal
        exact sum_two_changed ctx.n_codes (st.current_codes j)
          (ctx.calc_code_and_keys j assignment).1
          (fun code => if 1 < occupancy ctx.n_items
              (Function.update st.current_codes j (ctx.calc_code_and_keys j assignment).1)
              code then
            bucketFreqSum ctx.n_items
              (Function.update st.current_codes j (ctx.calc_code_and_keys j assignment).1)
              ctx.frequency code else 0)
          (fun code => if 1 < occupancy ctx.n_items st.current_codes code then
            bucketFreqSum ctx.n_items st.current_codes ctx.frequency code else 0)
          heq hold_lt hnew_lt
          (fun code _ h2 h3 => by
            dsimp only
            rw [occupancy_update_other h2 h3, bucketFreqSum_update_other h2 h3])
      rw [toI64_of_lt (by omega)]
      apply toU64_of_eq
      · split_ifs at hFsum ⊢ <;> omega
      · unfold M63 M64 at *
        omega
    · intro k hk
      rw [hlu', hkeys', addUsage_apply, subUsage_apply, hlu k hk]
      have hchg := sum_one_changed_rat ctx.n_items j
        (fun i => ((st.current_keys i).count k : ℚ) * ((ctx.frequency i : Nat) : ℚ))
        (fun i => (((Function.update st.current_keys j
            (ctx.calc_code_and_keys j assignment).2 i).count k : ℚ))
          * ((ctx.frequency i : Nat) : ℚ))
        hj (fun i _ h2 => by dsimp only; rw [Function.update_noteq h2])
      dsimp only at hchg
      unfold keyUsageTotal
      rw [hchg, Function.update_same]

theorem foldl_diffStep_preserves (ctx : OptContext) (assignment : Nat → Nat)
    (hsize : SizeWF ctx) (hcalc : CalcWF ctx assignment) :
    ∀ (affected : List Nat) (p : OptState × DiffLocals),
      (∀ i ∈ affected, i < ctx.n_items) → InvMid ctx p →
      InvMid ctx (affected.foldl (diffStep ctx assignment) p) := by
  intro affected
  induction affected with
  | nil =>
    intro p _ hp
    exact hp
  | cons a as ih =>
    intro p ha hp
    have ha' : a < ctx.n_items := ha a (List.mem_cons_self a as)
    have has : ∀ i ∈ as, i < ctx.n_items := fun i hi => ha i (List.mem_cons_of_mem a hi)
    have hstep : InvMid ctx (diffStep ctx assignment p a) :=
      diffStep_preserves ctx assignment p.1 p.2 a hsize hcalc ha' hp
    exact ih (diffStep ctx assignment p a) has hstep

/-- The diff updater keeps the full Optimizer State invariant. -/
theorem update_swap_diff_fast_preserves (ctx : OptContext) (st : OptState)
    (assignment : Nat → Nat) (affected : List Nat)
    (hsize : SizeWF ctx) (hinv : StateInv ctx st) (hcalc : CalcWF ctx assignment)
    (haff : ∀ i ∈ affected, i < ctx.n_items) :
    StateInv ctx (update_swap_diff_fast ctx st assignment affected) := by
  obtain ⟨hcodes, hkeys, hbuckets, hagg⟩ := hinv
  have hmid0 : InvMid ctx (st, initLocals st) :=
    ⟨hcodes, hkeys, hbuckets, hagg.1, hagg.2.1, hagg.2.2⟩
  have hmid := foldl_diffStep_preserves ctx assignment hsize hcalc affected
    (st, initLocals st) haff hmid0
  obtain ⟨hc, hk, hbk, hlc, hlf, hlu⟩ := hmid
  exact ⟨hc, hk, hbk, hlc, hlf, hlu⟩

/-- C1 (bug evidence): a rejected move does not restore the bucket the
moved item entered. With `wCtx`/`wSt`, item 0 leaves bucket 0 for
bucket 1, the move is rejected, yet bucket 1's occupancy and frequency
sum remain at their mutated values instead of the original zeros —
`create_swap_snapshot` only captures each affected item's old bucket. -/
theorem C1_rejected_move_leaves_new_bucket_mutated :
    (try_swap_optimized wCtx wSt wAsg 0 1 1 wRng).accepted = false ∧
    (try_swap_optimized wCtx wSt wAsg 0 1 1 wRng).state.buckets 1 = 1 ∧
    wSt.buckets 1 = 0 ∧
    (try_swap_optimized wCtx wSt wAsg 0 1 1 wRng).state.bucket_freqs 1 = 1 ∧
    wSt.bucket_freqs 1 = 0 := by
  have hf : fastRejected wCtx wAsg 0 1 = false := by decide
  rw [try_swap_not_fastRejected wCtx wSt wAsg 0 1 1 wRng hf]
  have hdelta : swap_delta wCtx wSt wAsg 0 1 = 1 := by
    norm_num [swap_delta, get_score, update_swap_diff_fast, affectedUnion, diffStep,
      initLocals, writeback, update_buckets_for_char, subUsage, addUsage, swappedAssignment,
      toI64, toU64, u16wsub1, u16wadd1, u64sub, u64add, M64, M63, wCtx, wSt, wAsg,
      Function.update_apply]
  rw [hdelta]
  norm_num [restore_swap_snapshot, create_swap_snapshot, writeEntries, update_swap_diff_fast,
    affectedUnion, diffStep, initLocals, writeback, update_buckets_for_char, subUsage,
    addUsage, swappedAssignment, toI64, toU64, u16wsub1, u16wadd1, u64sub, u64add, M64, M63,
    wCtx, wSt, wAsg, wRng, Function.update_apply]

/-- C3 (amended): after any accepted move from a state satisfying the
code's data-model invariants — with `total_collisions` equal to the
excess-item count, the sum over buckets of `occupancy - 1` — the
incrementally maintained aggregates again equal a from-scratch
recomputation: `total_collisions` is the excess-item count,
`collision_frequency` the summed frequency of all items in buckets
with occupancy above one, and `key_weighted_usage` the recomputed
per-key weighted usage; this holds for any affected-item list, in
particular when affected items share bucket codes. -/
theorem C3_accepted_move_matches_recomputation (ctx : OptContext) (st : OptState)
    (assignment : Nat → Nat) (r1 r2 : Nat) (temp : ℚ) (rng : Rng)
    (hsize : SizeWF ctx) (hinv : StateInv ctx st)
    (hcalc : CalcWF ctx (swappedAssignment assignment r1 r2))
    (haff : ∀ i ∈ affectedUnion ctx r1 r2, i < ctx.n_items)
    (hacc : (try_swap_optimized ctx st assignment r1 r2 temp rng).accepted = true) :
    StateInv ctx (try_swap_optimized ctx st assignment r1 r2 temp rng).state ∧
    (try_swap_optimized ctx st assignment r1 r2 temp rng).state.collision_frequency =
      collisionFreqItems ctx.n_items
        (try_swap_optimized ctx st assignment r1 r2 temp rng).state.current_codes
        ctx.frequency := by
  by_cases hf : fastRejected ctx assignment r1 r2
  · rw [try_swap_of_fastRejected ctx st assignment r1 r2 temp rng hf] at hacc
    exact absurd hacc (by simp)
  · have hf' : fastRejected ctx assignment r1 r2 = false := by simpa using hf
    have hpres := update_swap_diff_fast_preserves ctx st
      (swappedAssignment assignment r1 r2) (affectedUnion ctx r1 r2) hsize hinv hcalc haff
    have hstate : (try_swap_optimized ctx st assignment r1 r2 temp rng).state =
        update_swap_diff_fast ctx st (swappedAssignment assignment r1 r2)
          (affectedUnion ctx r1 r2) := by
      rw [try_swap_not_fastRejected ctx st assignment r1 r2 temp rng hf'] at hacc ⊢
      split_ifs with h1 h2
      · rfl
      · rfl
      · rw [if_neg h1, if_neg h2] at hacc
        exact absurd hacc (by simp)
    rw [hstate]
    exact ⟨hpres, (hpres.2.2.2.2.1).trans (collisionFreqTotal_eq_items hpres.1)⟩

/-- Witness for the amended C3 at a concrete accepted move: three items
share bucket 0, the state carries the excess-item collision count, and
one item moves out. -/
theorem C3_accepted_move_matches_recomputation_witness :
    StateInv cCtx (try_swap_optimized cCtx cStExcess wAsg 0 1 1 wRng).state ∧
    (try_swap_optimized cCtx cStExcess wAsg 0 1 1 wRng).state.collision_frequency =
      collisionFreqItems cCtx.n_items
        (try_swap_optimized cCtx cStExcess wAsg 0 1 1 wRng).state.current_codes
        cCtx.frequency :=
  C3_accepted_move_matches_recomputation cCtx cStExcess wAsg 0 1 1 wRng
    (by decide)
    ⟨by decide, by decide, ⟨by decide, by decide⟩, by decide, by decide, by
      intro k hk
      have hk2 : k < 2 := hk
      interval_cases k
      · norm_num [cStExcess, cSt, cCtx, keyUsageTotal, Finset.sum_range_succ]
      · norm_num [cStExcess, cSt, cCtx, keyUsageTotal, Finset.sum_range_succ]⟩
    (by decide) (by decide)
    (by
      have hd : swap_delta cCtx cStExcess wAsg 0 1 ≤ 0 := by
        norm_num [swap_delta, get_score, update_swap_diff_fast, affectedUnion, diffStep,
          initLocals, writeback, update_buckets_for_char, subUsage, addUsage,
          swappedAssignment, toI64, toU64, u16wsub1, u16wadd1, u64sub, u64add, M64, M63,
          cCtx, cSt, cStExcess, wAsg, Function.update_apply]
      rw [try_swap_not_fastRejected cCtx cStExcess wAsg 0 1 1 wRng (by decide), if_pos hd])

/-- C3 (counterexample to the claim as stated): starting from a state
satisfying the spec-worded data-model invariants — in particular
`total_collisions` equal to the number of buckets with occupancy above
one — an accepted move that takes one item out of a three-item bucket
leaves `total_collisions` at 0 while a from-scratch count of buckets
with occupancy above one gives 1: the code maintains the excess-item
count, not the bucket count. -/
theorem C3_claimed_collision_count_fails :
    ClaimedStateInv cCtx cSt ∧
    (try_swap_optimized cCtx cSt wAsg 0 1 1 wRng).accepted = true ∧
    (try_swap_optimized cCtx cSt wAsg 0 1 1 wRng).state.total_collisions ≠
      claimedCollisions cCtx.n_items cCtx.n_codes
        (try_swap_optimized cCtx cSt wAsg 0 1 1 wRng).state.current_codes := by
  have hf : fastRejected cCtx wAsg 0 1 = false := by decide
  have hdelta : swap_delta cCtx cSt wAsg 0 1 ≤ 0 := by
    norm_num [swap_delta, get_score, update_swap_diff_fast, affectedUnion, diffStep,
      initLocals, writeback, update_buckets_for_char, subUsage, addUsage, swappedAssignment,
      toI64, toU64, u16wsub1, u16wadd1, u64sub, u64add, M64, M63, cCtx, cSt, wAsg,
      Function.update_apply]
  have hts : try_swap_optimized cCtx cSt wAsg 0 1 1 wRng =
      ⟨true, update_swap_diff_fast cCtx cSt (swappedAssignment wAsg 0 1)
        (affectedUnion cCtx 0 1), swappedAssignment wAsg 0 1, wRng⟩ := by
    rw [try_swap_not_fastRejected cCtx cSt wAsg 0 1 1 wRng hf, if_pos hdelta]
  refine ⟨?_, ?_, ?_⟩
  · refine ⟨by decide, by decide, ⟨by decide, by decide⟩, by decide, by decide, ?_, ?_, ?_⟩
    · norm_num [cSt, cCtx, Finset.sum_range_succ]
    · norm_num [cSt, cCtx, Finset.sum_range_succ]
    · intro k hk
      have hk2 : k < 2 := hk
      interval_cases k
      · norm_num [cSt, cCtx, keyUsageTotal, Finset.sum_range_succ]
      · norm_num [cSt, cCtx, keyUsageTotal, Finset.sum_range_succ]
  · rw [hts]
  · rw [hts]
    decide

end Op
